import Mathlib

/-!
Verification development for the x-mcp server (an MCP server exposing the
X/Twitter API).  The JavaScript source is shallowly embedded below:

* the OAuth 1.0a canonicalizer `enc` (percent-encoding with the strict
  unreserved set) is modelled at the level of Unicode characters and their
  UTF-8 octets;
* the signing engine `oauthSign` and the request builder of `xapiAuth` are
  modelled as pure functions, with the HMAC-SHA1/base64 primitive from
  node:crypto (an external library) abstracted as a function parameter;
* the response handling of the bearer dispatcher `xapi` and the delegated
  dispatcher `xapiAuth` is modelled as functions of the (status, body) pair;
* the capability-gated tool registry and the startup sequence are modelled
  over an explicit credential record;
* the one-shot OAuth callback flow of setup.js and the memoized
  `getMyUserId` cell are modelled as step functions over explicit states,
  driven by event lists (one event per observable action of the JS runtime).
-/

namespace XMcp

/-! ## Canonicalizer (`enc` in both the server and setup.js)

The source is
`encodeURIComponent(str).replace(/[!'()*]/g, c => "%" + c.charCodeAt(0).toString(16).toUpperCase())`.
`encodeURIComponent` leaves the characters `A-Z a-z 0-9 - _ . ! ~ * ' ( )`
unescaped and emits an uppercase two-digit `%XX` escape for every UTF-8
octet of every other character; the `replace` then escapes `! ' ( ) *`.
-/

/-- Code points left literal by JavaScript `encodeURIComponent`:
`A-Z a-z 0-9 - . _ ~ ! * ' ( )`. -/
def jsUnescaped (n : Nat) : Bool :=
  (65 ≤ n && n ≤ 90) || (97 ≤ n && n ≤ 122) || (48 ≤ n && n ≤ 57) ||
  n == 45 || n == 46 || n == 95 || n == 126 ||
  n == 33 || n == 39 || n == 40 || n == 41 || n == 42

/-- The five characters `! ' ( ) *` that the `.replace(/[!'()*]/g, ...)`
step additionally escapes. -/
def specialByte (n : Nat) : Bool :=
  n == 33 || n == 39 || n == 40 || n == 41 || n == 42

/-- The strict RFC 3986 unreserved set `A-Z a-z 0-9 - . _ ~` demanded by the
OAuth 1.0a signing spec. -/
def oauthUnreserved (n : Nat) : Bool :=
  (65 ≤ n && n ≤ 90) || (97 ≤ n && n ≤ 122) || (48 ≤ n && n ≤ 57) ||
  n == 45 || n == 46 || n == 95 || n == 126

/-- Uppercase hexadecimal digit, as produced both by `encodeURIComponent`
and by `toString(16).toUpperCase()` in the replace step. -/
def hexDigitChar (n : Nat) : Char :=
  if n < 10 then Char.ofNat (48 + n) else Char.ofNat (55 + n)

/-- The three characters of a two-digit percent escape `%XX` of one octet. -/
def pctChars (b : Nat) : List Char :=
  ['%', hexDigitChar (b / 16 % 16), hexDigitChar (b % 16)]

/-- UTF-8 octets of one Unicode scalar value. -/
def utf8Encode (c : Char) : List Nat :=
  let n := c.toNat
  if n < 128 then [n]
  else if n < 2048 then [192 + n / 64, 128 + n % 64]
  else if n < 65536 then [224 + n / 4096, 128 + n / 64 % 64, 128 + n % 64]
  else [240 + n / 262144, 128 + n / 4096 % 64, 128 + n / 64 % 64, 128 + n % 64]

/-- UTF-8 octets of a character sequence. -/
def utf8Bytes (cs : List Char) : List Nat :=
  cs.flatMap utf8Encode

/-- One character under JavaScript `encodeURIComponent`: members of the
unescaped set stay literal, every other character becomes the percent
escapes of its UTF-8 octets. -/
def encodeURIComponentChar (c : Char) : List Char :=
  if jsUnescaped c.toNat then [c] else (utf8Encode c).flatMap pctChars

/-- One character under `.replace(/[!'()*]/g, c => "%" + ...)`: the five
special characters become their uppercase hex escape, everything else is
untouched. -/
def replaceSpecialChar (c : Char) : List Char :=
  if specialByte c.toNat then pctChars c.toNat else [c]

/-- Character-list form of `enc`: `encodeURIComponent` followed by the
global replace of `! ' ( ) *`. -/
def encList (cs : List Char) : List Char :=
  (cs.flatMap encodeURIComponentChar).flatMap replaceSpecialChar

/-- The percent-encoder `enc` shared by the server and setup.js. -/
def enc (s : String) : String :=
  String.mk (encList s.data)

/-- Spec-side encoder (§4.1 of the spec): escape every octet except the
strict unreserved set, leaving unreserved octets literal.  Defined from the
words of the spec, to be compared with `enc`. -/
def strictEscapeByte (b : Nat) : List Char :=
  if oauthUnreserved b then [Char.ofNat b] else pctChars b

/-- Spec-side percent encoding of an octet sequence. -/
def oauthPercentEncodeBytes (bs : List Nat) : List Char :=
  bs.flatMap strictEscapeByte

/-! ## String ordering (JavaScript default `Array.prototype.sort`)

`Object.keys(all).sort()` compares strings lexicographically by code unit.
For the ASCII parameter names and values this server produces, this agrees
with code-point order, which is what we model. -/

/-- Lexicographic comparison of character lists by code point. -/
def charListLe : List Char → List Char → Bool
  | [], _ => true
  | _ :: _, [] => false
  | a :: as, b :: bs =>
    if a.toNat < b.toNat then true
    else if b.toNat < a.toNat then false
    else charListLe as bs

/-- JavaScript default string comparison (code-point lexicographic). -/
def strLe (a b : String) : Bool :=
  charListLe a.data b.data

/-- The sort relation used by `Object.keys(...).sort()`. -/
def strLeRel (a b : String) : Prop :=
  strLe a b = true

instance : DecidableRel strLeRel :=
  fun a b => instDecidableEqBool (strLe a b) true

/-- Sorting of the key array, as done by `Object.keys(all).sort()`. -/
def sortStrings (l : List String) : List String :=
  List.insertionSort strLeRel l

/-! ## JavaScript object semantics

`{ ...a, ...b }` builds an object whose keys appear in first-insertion
order; a later entry with an existing key overwrites the value in place.
Plain objects cannot hold two entries with the same key. -/

/-- Insert one `key = value` assignment into an object, JS-style: overwrite
in place when the key exists, append otherwise. -/
def objUpsert (o : List (String × String)) (kv : String × String) : List (String × String) :=
  if o.any (fun p => p.1 == kv.1) then
    o.map (fun p => if p.1 == kv.1 then (p.1, kv.2) else p)
  else
    o ++ [kv]

/-- The object obtained by inserting a list of assignments left to right,
modelling object spread `{ ...a, ...b }`. -/
def jsObject (l : List (String × String)) : List (String × String) :=
  l.foldl objUpsert []

/-- The parameter string of an already-built object:
`Object.keys(all).sort().map(k => enc(k) + "=" + enc(all[k])).join("&")`
(inline in `oauthSign` of the server and `sign` of setup.js). -/
def paramStringOfObject (obj : List (String × String)) : String :=
  String.intercalate "&"
    ((sortStrings (obj.map Prod.fst)).map
      (fun k => enc k ++ "=" ++ enc ((obj.lookup k).getD "")))

/-- Parameter-string construction from an assignment list: build the JS
object, then sort the keys and join the encoded pairs. -/
def buildParameterString (params : List (String × String)) : String :=
  paramStringOfObject (jsObject params)

/-- Spec-side pair order (§4.1 of the spec): by encoded key, ties broken by
encoded value. -/
def specPairLe (p q : String × String) : Bool :=
  if enc p.1 == enc q.1 then strLe (enc p.2) (enc q.2) else strLe (enc p.1) (enc q.1)

/-- Spec-side parameter string (§4.1 of the spec): the pair list itself is
sorted by encoded key, then encoded value, and joined; duplicate keys are
permitted.  Defined from the words of the spec, to be compared with
`buildParameterString`. -/
def specBuildParameterString (params : List (String × String)) : String :=
  String.intercalate "&"
    ((List.insertionSort (fun p q => specPairLe p q = true) params).map
      (fun p => enc p.1 ++ "=" ++ enc p.2))

/-! ## Credentials -/

/-- The five environment-sourced credentials: `X_BEARER_TOKEN`, and the
OAuth quadruple `X_API_KEY`, `X_API_SECRET`, `X_ACCESS_TOKEN`,
`X_ACCESS_TOKEN_SECRET` (fields named as in the server's `OAUTH` object).
A variable absent from the environment reads as the empty string. -/
structure Credentials where
  bearerToken : String
  consumerKey : String
  consumerSecret : String
  token : String
  tokenSecret : String
deriving DecidableEq

/-- `HAS_OAUTH = !!(OAUTH.consumerKey && OAUTH.consumerSecret && OAUTH.token
&& OAUTH.tokenSecret)` — all four delegated credentials non-empty (JS
truthiness of strings). -/
def hasOauth (c : Credentials) : Bool :=
  (c.consumerKey ≠ "") && (c.consumerSecret ≠ "") && (c.token ≠ "") && (c.tokenSecret ≠ "")

/-! ## Signing engine (`oauthSign` in the server)

`Date.now` and `randomBytes` are runtime inputs and appear as the `ts` and
`nonce` arguments; `createHmac("sha1", key).update(msg).digest("base64")`
from node:crypto is an external primitive and appears as the abstract
function argument `hmac : key → message → base64 signature`. -/

/-- The six `oauth_*` protocol parameters built at the top of `oauthSign`. -/
def protocolParams (c : Credentials) (ts nonce : String) : List (String × String) :=
  [("oauth_consumer_key", c.consumerKey),
   ("oauth_nonce", nonce),
   ("oauth_signature_method", "HMAC-SHA1"),
   ("oauth_timestamp", ts),
   ("oauth_token", c.token),
   ("oauth_version", "1.0")]

/-- Result of `oauthSign`: the computed signature and the emitted
`Authorization` header. -/
structure SignResult where
  signature : String
  header : String
deriving DecidableEq

/-- The server's `oauthSign(method, url, queryParams)`, transcribed: merge
the protocol parameters with the query parameters, sort and encode into the
parameter string, build the base string and signing key, HMAC-sign, then
render the header from the protocol parameters plus `oauth_signature`. -/
def oauthSign (hmac : String → String → String) (c : Credentials)
    (ts nonce method url : String) (queryParams : List (String × String)) : SignResult :=
  let oauthParams := protocolParams c ts nonce
  let all := jsObject (oauthParams ++ queryParams)
  let paramStr := paramStringOfObject all
  let baseStr := method.toUpper ++ "&" ++ enc url ++ "&" ++ enc paramStr
  let signingKey := enc c.consumerSecret ++ "&" ++ enc c.tokenSecret
  let sig := hmac signingKey baseStr
  let headerParams := jsObject (oauthParams ++ [("oauth_signature", sig)])
  let header := "OAuth " ++ String.intercalate ", "
    ((sortStrings (headerParams.map Prod.fst)).map
      (fun k => enc k ++ "=\"" ++ enc ((headerParams.lookup k).getD "") ++ "\""))
  { signature := sig, header := header }

/-! ## Delegated request builder (`xapiAuth` in the server)

`new URL(fullUrl)` is used only to split off the query string
(`urlObj.origin + urlObj.pathname`) and to iterate `searchParams`.  The
URLs this server builds are well-formed absolute `https` URLs without
fragment or userinfo, for which `origin + pathname` is the prefix before
the first `?`, and `searchParams` splits the rest on `&`, splits each
segment at its first `=`, and percent-plus-decodes both halves.  We model
the decoding at the octet level, which agrees with `URLSearchParams` on the
ASCII query strings this server produces. -/

/-- Hexadecimal digit test for percent decoding. -/
def isHexDigitChar (c : Char) : Bool :=
  (48 ≤ c.toNat && c.toNat ≤ 57) || (65 ≤ c.toNat && c.toNat ≤ 70) ||
  (97 ≤ c.toNat && c.toNat ≤ 102)

/-- Percent-plus decoding of `URLSearchParams`: `+` becomes a space and
`%XX` becomes the octet `XX`. -/
def percentPlusDecode : List Char → List Char
  | [] => []
  | '+' :: rest => ' ' :: percentPlusDecode rest
  | '%' :: h₁ :: h₂ :: rest =>
    if isHexDigitChar h₁ && isHexDigitChar h₂ then
      Char.ofNat (16 * hexValue h₁ + hexValue h₂) :: percentPlusDecode rest
    else
      '%' :: percentPlusDecode (h₁ :: h₂ :: rest)
  | c :: rest => c :: percentPlusDecode rest
where
  hexValue (c : Char) : Nat :=
    if c.toNat ≤ 57 then c.toNat - 48
    else if c.toNat ≤ 70 then c.toNat - 55
    else c.toNat - 87

/-- Decode one query segment `k=v` (split at the first `=`; a segment with
no `=` yields an empty value). -/
def parseQueryPair (s : String) : String × String :=
  match s.splitOn "=" with
  | [] => ("", "")
  | k :: rest =>
    (String.mk (percentPlusDecode k.data),
     String.mk (percentPlusDecode (String.intercalate "=" rest).data))

/-- The query parameters of a raw query string, as iterated from
`urlObj.searchParams` and collected into the `queryParams` object. -/
def parseQuery (s : String) : List (String × String) :=
  jsObject (((s.splitOn "&").filter (fun seg => seg ≠ "")).map parseQueryPair)

/-- Base of the full URL: v1.1 endpoints go to the bare host, everything
else under `/2`. -/
def apiBase (endpoint : String) : String :=
  if endpoint.startsWith "/1.1/" then "https://api.x.com" else "https://api.x.com/2"

/-- The full request URL `base + endpoint`. -/
def fullUrlOf (endpoint : String) : String :=
  apiBase endpoint ++ endpoint

/-- `urlObj.origin + urlObj.pathname`: the URL up to (excluding) the first
`?` — the URL with query and fragment removed. -/
def signingUrl (endpoint : String) : String :=
  ((fullUrlOf endpoint).splitOn "?").headD ""

/-- The query-string portion of the full URL (text after the first `?`). -/
def queryStringOf (endpoint : String) : String :=
  String.intercalate "?" ((fullUrlOf endpoint).splitOn "?").tail

/-- The true query-string parameters of the request URL, the only
non-protocol parameters that participate in signing. -/
def signedQueryParams (endpoint : String) : List (String × String) :=
  parseQuery (queryStringOf endpoint)

/-- The outgoing HTTP request assembled by `xapiAuth` before `fetch`:
method, full URL, `Authorization` header, and the JSON body (attached only
for POST/PUT). -/
structure AuthRequest where
  url : String
  method : String
  authHeader : String
  body : Option String
deriving DecidableEq

/-- The pure request-building part of `xapiAuth(method, endpoint, body)`:
parse query parameters out of the endpoint for signing, sign against the
URL without its query, and attach the body only to POST/PUT requests. -/
def xapiAuthRequest (hmac : String → String → String) (c : Credentials)
    (ts nonce method endpoint : String) (body : Option String) : AuthRequest :=
  let authHeader := (oauthSign hmac c ts nonce method (signingUrl endpoint)
    (signedQueryParams endpoint)).header
  { url := fullUrlOf endpoint
    method := method
    authHeader := authHeader
    body := if method = "POST" ∨ method = "PUT" then body else none }

/-- Spec-side signing key (§4.2 step 4):
`percentEncode(consumerSecret) & percentEncode(tokenSecret)`. -/
def specSigningKey (c : Credentials) : String :=
  enc c.consumerSecret ++ "&" ++ enc c.tokenSecret

/-- Spec-side base string (§4.2 steps 1–3): uppercase method, the URL
without query or fragment, and the parameter string of the six protocol
parameters merged with the URL's true query-string parameters, joined by
`&` with the latter two components percent-encoded. -/
def specBaseString (c : Credentials) (ts nonce method endpoint : String) : String :=
  method.toUpper ++ "&" ++ enc (signingUrl endpoint) ++ "&" ++
    enc (buildParameterString (protocolParams c ts nonce ++ signedQueryParams endpoint))

/-! ## Response handling of the two dispatchers -/

/-- What a dispatcher does with an upstream response: parse the body as the
result payload (`res.json()`), return the fixed empty-payload success
(`{ success: true }`, body untouched), or throw carrying status and raw
body. -/
inductive ApiOutcome where
  | parsedBody (raw : String)
  | emptySuccess
  | upstreamError (status : Nat) (body : String)
deriving DecidableEq

/-- An upstream HTTP response as observed by the dispatcher. -/
structure HttpResponse where
  status : Nat
  body : String
deriving DecidableEq

/-- `res.ok` of the Fetch API: status in the inclusive range 200–299. -/
def resOk (status : Nat) : Bool :=
  200 ≤ status && status ≤ 299

/-- Response handling of the bearer dispatcher `xapi`: non-ok throws with
status and body text, otherwise the body is parsed as JSON. -/
def xapiHandle (status : Nat) (body : String) : ApiOutcome :=
  if resOk status then .parsedBody body else .upstreamError status body

/-- Response handling of the delegated dispatcher `xapiAuth`: 204 returns
`{ success: true }` without touching the body, non-ok throws with status
and body text, otherwise the body is parsed as JSON. -/
def xapiAuthHandle (status : Nat) (body : String) : ApiOutcome :=
  if status == 204 then .emptySuccess
  else if resOk status then .parsedBody body
  else .upstreamError status body

/-- The bearer dispatcher issues exactly one `fetch` and handles its
response; given the sequence of responses the upstream would return to
successive requests, it consumes the first one only.  The second component
counts the requests issued. -/
def xapiDispatch : List HttpResponse → Option (ApiOutcome × Nat)
  | [] => none
  | r :: _ => some (xapiHandle r.status r.body, 1)

/-- The delegated dispatcher likewise issues exactly one `fetch`. -/
def xapiAuthDispatch : List HttpResponse → Option (ApiOutcome × Nat)
  | [] => none
  | r :: _ => some (xapiAuthHandle r.status r.body, 1)

/-! ## Capability-gated tool registry -/

/-- Names of the 17 bearer-only tools, registered unconditionally, in
source order. -/
def bearerToolNames : List String :=
  ["search_tweets", "get_user_profile", "get_user_tweets", "get_tweet_replies",
   "get_tweet", "get_user_followers", "get_user_following", "get_liking_users",
   "get_trending_topics", "get_community", "search_communities", "get_news",
   "get_api_usage", "get_list", "get_user_lists", "get_list_members",
   "get_user_list_memberships"]

/-- Names of the tools registered inside `if (HAS_OAUTH) { ... }`, in source
order: 14 individually declared tools followed by the 12 generated toggle
tools. -/
def oauthToolNames : List String :=
  ["get_my_profile", "get_user_mentions", "get_quote_tweets", "get_bookmarks",
   "upload_media", "create_post", "delete_post", "create_list", "update_list",
   "delete_list", "add_list_member", "remove_list_member", "pin_list", "unpin_list",
   "like_post", "unlike_post", "repost", "unrepost", "follow_user", "unfollow_user",
   "bookmark_post", "unbookmark_post", "block_user", "unblock_user",
   "mute_user", "unmute_user"]

/-- The set of tool names declared to the MCP server for a given credential
set: the bearer tools always, the OAuth tools only when `HAS_OAUTH`.  A
name outside this list was never declared, so invoking it is an
unknown-tool error of the host framework. -/
def registeredTools (c : Credentials) : List String :=
  bearerToolNames ++ (if hasOauth c then oauthToolNames else [])

/-- The server's `toolCount = HAS_OAUTH ? 44 : 17` constant. -/
def toolCount (c : Credentials) : Nat :=
  if hasOauth c then 44 else 17

/-- Observable startup outcome: immediate exit with a code, or serving with
a tool list and, when OAuth credentials are missing, the operator
diagnostic stating (active count, full count) — the literals 17 and 44 of
the two `console.error` lines. -/
inductive StartupOutcome where
  | exited (code : Nat)
  | serving (tools : List String) (reducedDiag : Option (Nat × Nat))
deriving DecidableEq

/-- The startup sequence: a missing bearer token exits with code 1 before
any tool is registered; otherwise the server registers its tools and, when
OAuth credentials are absent, emits the reduced-mode diagnostic. -/
def startup (c : Credentials) : StartupOutcome :=
  if c.bearerToken = "" then .exited 1
  else .serving (registeredTools c) (if hasOauth c then none else some (17, 44))

/-! ## The one-shot OAuth callback flow of setup.js

The `verifier` promise creates an HTTP server, resolves on the first
request whose path is `/callback` (closing the server first), exits on
`EADDRINUSE`, and closes the server and rejects after the 300000 ms
timeout.  The temporary-credential request precedes server creation:
its rejection exits the process before the listener exists.  Each
constructor of `FlowEvent` is one observable action of the JS runtime. -/

/-- The 5-minute callback wait bound, in milliseconds. -/
def callbackTimeoutMs : Nat := 300000

/-- The fixed local callback port. -/
def callbackPort : Nat := 3456

/-- Control points of the setup flow. -/
inductive FlowPhase where
  | init
  | binding
  | waiting
  | exchanging (verifier : Option String)
  | timedOut
  | requestRejected (status : Nat) (body : String)
  | portBusy
deriving DecidableEq

/-- Flow state: current phase, whether the local listener is bound, and how
many callbacks have been consumed (resolved into the verifier promise). -/
structure FlowState where
  phase : FlowPhase
  listenerBound : Bool
  callbacksConsumed : Nat
deriving DecidableEq

/-- Events driving the flow. -/
inductive FlowEvent where
  | tempCredsOk
  | tempCredsRejected (status : Nat) (body : String)
  | listenOk
  | listenBusy
  | inboundRequest (path : String) (verifier : Option String)
  | timeoutFire
deriving DecidableEq

/-- One step of the setup flow.  In `waiting`, a request to `/callback`
closes the server and resolves with `searchParams.get("oauth_verifier")`
(which is null when the parameter is absent); a request to any other path
is left pending and the flow keeps waiting; the timeout closes the server
and rejects.  Events that cannot occur in the current phase leave the
state unchanged — in particular inbound connections after the listener
closed are ignored. -/
def flowStep (s : FlowState) (e : FlowEvent) : FlowState :=
  match s.phase, e with
  | .init, .tempCredsOk => { s with phase := .binding }
  | .init, .tempCredsRejected st b => { s with phase := .requestRejected st b }
  | .binding, .listenOk => { s with phase := .waiting, listenerBound := true }
  | .binding, .listenBusy => { s with phase := .portBusy }
  | .waiting, .inboundRequest p v =>
    if p = "/callback" then
      { phase := .exchanging v, listenerBound := false,
        callbacksConsumed := s.callbacksConsumed + 1 }
    else s
  | .waiting, .timeoutFire => { s with phase := .timedOut, listenerBound := false }
  | _, _ => s

/-- Initial flow state. -/
def initFlowState : FlowState :=
  { phase := .init, listenerBound := false, callbacksConsumed := 0 }

/-- Run the flow over an event sequence. -/
def runFlow (evs : List FlowEvent) : FlowState :=
  evs.foldl flowStep initFlowState

/-- Phases in which the flow has terminated (the verifier promise settled
or the process exited): success, rejected temporary-credential request,
occupied port, and timeout. -/
def flowExited : FlowPhase → Bool
  | .exchanging _ => true
  | .timedOut => true
  | .requestRejected _ _ => true
  | .portBusy => true
  | _ => false

/-- JavaScript string coercion applied by `enc` to a possibly-null value:
`String(null)` is the four-character string `null`. -/
def jsCoerceNull : Option String → String
  | some s => s
  | none => "null"

/-- The extra parameters of the permanent-credential exchange in setup.js:
`sign("POST", accessTokenUrl, { oauth_token, oauth_verifier: verifier }, ...)`,
with the resolved verifier coerced the way `enc` coerces it. -/
def accessTokenRequestParams (tok : String) (v : Option String) : List (String × String) :=
  [("oauth_token", tok), ("oauth_verifier", jsCoerceNull v)]

/-! ## The memoized authenticated user id (`getMyUserId`)

`let _myUserId = null` is a module-level cell.  Each invocation checks the
cell synchronously; on a miss it issues the upstream `GET /users/me` and
awaits; the response fills the cell.  Between the check and the response
other invocations may run — each `IdFetchEvent` is one such synchronous
segment. -/

/-- Progress of one invocation of `getMyUserId`. -/
inductive ThreadPhase where
  | idle
  | awaitingResponse
  | finished (id : String)
deriving DecidableEq

/-- Global state: the `_myUserId` cell (`none` is JS `null`), the number of
upstream who-am-i requests issued, and each invocation's progress. -/
structure IdFetchState where
  cache : Option String
  requests : Nat
  threads : Nat → ThreadPhase

/-- JS truthiness of the `_myUserId` cell: `null` and the empty string are
falsy. -/
def truthy : Option String → Bool
  | none => false
  | some s => s != ""

/-- Events: `invoke t` is the synchronous prefix of invocation `t` (cache
check and, on a miss, issuing the request); `response t id` is the
upstream response reaching invocation `t`, which writes the cell. -/
inductive IdFetchEvent where
  | invoke (t : Nat)
  | response (t : Nat) (id : String)
deriving DecidableEq

/-- One step of the memoization machine, transcribing `getMyUserId`. -/
def idFetchStep (s : IdFetchState) (e : IdFetchEvent) : IdFetchState :=
  match e with
  | .invoke t =>
    match s.threads t with
    | .idle =>
      if truthy s.cache then
        { s with threads := fun n => if n = t then .finished (s.cache.getD "") else s.threads n }
      else
        { s with requests := s.requests + 1,
                 threads := fun n => if n = t then .awaitingResponse else s.threads n }
    | _ => s
  | .response t id =>
    match s.threads t with
    | .awaitingResponse =>
      { cache := some id, requests := s.requests,
        threads := fun n => if n = t then .finished id else s.threads n }
    | _ => s

/-- Initial memoization state. -/
def initIdFetch : IdFetchState :=
  { cache := none, requests := 0, threads := fun _ => .idle }

/-- Run the memoization machine over an event sequence. -/
def runIdFetch (evs : List IdFetchEvent) : IdFetchState :=
  evs.foldl idFetchStep initIdFetch

/-- Invariant of the setup flow: the listener is bound exactly in the
`waiting` phase, and exactly one callback has been consumed exactly when
the verifier promise has resolved. -/
def flowInv (s : FlowState) : Prop :=
  (s.listenerBound = true ↔ s.phase = .waiting)
  ∧ (match s.phase with
     | .exchanging _ => s.callbacksConsumed = 1
     | _ => s.callbacksConsumed = 0)

/-! ## Order and permutation facts used by the theorems below -/

theorem char_toNat_inj {a b : Char} (h : a.toNat = b.toNat) : a = b := by
  have ha := Char.ofNat_toNat a
  rw [h, Char.ofNat_toNat] at ha
  exact ha.symm

theorem string_ext {a b : String} (h : a.data = b.data) : a = b := by
  cases a
  cases b
  exact congrArg String.mk h

theorem charListLe_total : ∀ as bs, charListLe as bs = true ∨ charListLe bs as = true
  | [], _ => Or.inl rfl
  | _ :: _, [] => Or.inr rfl
  | a :: as, b :: bs => by
    by_cases h₁ : a.toNat < b.toNat
    · left
      simp [charListLe, h₁]
    · by_cases h₂ : b.toNat < a.toNat
      · right
        simp [charListLe, h₂]
      · rcases charListLe_total as bs with h | h
        · left
          simp [charListLe, h₁, h₂, h]
        · right
          simp [charListLe, h₁, h₂, h]

theorem charListLe_trans : ∀ as bs cs, charListLe as bs = true → charListLe bs cs = true →
    charListLe as cs = true
  | [], _, _ => by intro _ _; rfl
  | _ :: _, [], _ => by intro h _; simp [charListLe] at h
  | _ :: _, _ :: _, [] => by intro _ h; simp [charListLe] at h
  | a :: as, b :: bs, c :: cs => by
    intro h₁ h₂
    simp only [charListLe] at h₁ h₂ ⊢
    split_ifs at h₁ h₂ ⊢ <;> first
      | rfl
      | omega
      | exact charListLe_trans as bs cs h₁ h₂

theorem charListLe_antisymm : ∀ as bs, charListLe as bs = true → charListLe bs as = true →
    as = bs
  | [], [] => by intro _ _; rfl
  | [], _ :: _ => by intro _ h; simp [charListLe] at h
  | _ :: _, [] => by intro h _; simp [charListLe] at h
  | a :: as, b :: bs => by
    intro h₁ h₂
    simp only [charListLe] at h₁ h₂
    by_cases hab : a.toNat < b.toNat
    · simp [hab, Nat.lt_asymm hab] at h₂
    · by_cases hba : b.toNat < a.toNat
      · simp [hba, Nat.lt_asymm hba] at h₁
      · obtain rfl : a = b := char_toNat_inj (by omega)
        simp only [Nat.lt_irrefl, if_false] at h₁ h₂
        rw [charListLe_antisymm as bs h₁ h₂]

instance : IsTotal String strLeRel :=
  ⟨fun a b => charListLe_total a.data b.data⟩

instance : IsTrans String strLeRel :=
  ⟨fun a b c => charListLe_trans a.data b.data c.data⟩

instance : IsAntisymm String strLeRel :=
  ⟨fun a b h₁ h₂ => string_ext (charListLe_antisymm a.data b.data h₁ h₂)⟩

theorem sortStrings_perm_eq {l₁ l₂ : List String} (h : l₁.Perm l₂) :
    sortStrings l₁ = sortStrings l₂ :=
  List.eq_of_perm_of_sorted
    ((List.perm_insertionSort strLeRel l₁).trans
      (h.trans (List.perm_insertionSort strLeRel l₂).symm))
    (List.sorted_insertionSort strLeRel l₁)
    (List.sorted_insertionSort strLeRel l₂)

theorem foldl_objUpsert_eq_append : ∀ (l acc : List (String × String)),
    ((acc ++ l).map Prod.fst).Nodup → l.foldl objUpsert acc = acc ++ l
  | [], acc => by simp
  | x :: l, acc => by
    intro h
    have hx : x.1 ∉ acc.map Prod.fst := by
      simp only [List.map_append, List.nodup_append, List.map_cons] at h
      intro hmem
      exact h.2.2 hmem (List.mem_cons_self _ _)
    have hstep : objUpsert acc x = acc ++ [x] := by
      have : acc.any (fun p => p.1 == x.1) = false := by
        rw [List.any_eq_false]
        intro p hp
        simp only [beq_iff_eq]
        intro hpe
        exact hx (hpe ▸ List.mem_map_of_mem Prod.fst hp)
      simp [objUpsert, this]
    have h' : (((acc ++ [x]) ++ l).map Prod.fst).Nodup := by
      rwa [List.append_assoc, List.singleton_append]
    calc (x :: l).foldl objUpsert acc
        = l.foldl objUpsert (objUpsert acc x) := rfl
      _ = l.foldl objUpsert (acc ++ [x]) := by rw [hstep]
      _ = (acc ++ [x]) ++ l := foldl_objUpsert_eq_append l (acc ++ [x]) h'
      _ = acc ++ x :: l := by simp

theorem jsObject_eq_self {l : List (String × String)} (h : (l.map Prod.fst).Nodup) :
    jsObject l = l := by
  have := foldl_objUpsert_eq_append l [] (by simpa using h)
  simpa [jsObject] using this

theorem lookup_perm {l₁ l₂ : List (String × String)} (h : l₁.Perm l₂)
    (nd : (l₁.map Prod.fst).Nodup) : ∀ k, l₁.lookup k = l₂.lookup k := by
  induction h with
  | nil => intro k; rfl
  | cons x h ih =>
    intro k
    rcases x with ⟨xk, xv⟩
    cases hk : k == xk
    · simp only [List.lookup_cons, hk]
      exact ih (by simpa using nd.of_cons) k
    · simp [List.lookup_cons, hk]
  | swap x y l =>
    intro k
    rcases x with ⟨xk, xv⟩
    rcases y with ⟨yk, yv⟩
    have hne : yk ≠ xk := by
      simp only [List.map_cons, List.nodup_cons, List.mem_cons] at nd
      exact fun he => nd.1 (Or.inl he)
    cases h₁ : k == yk
    · simp [List.lookup_cons, h₁]
    · have h₂ : (k == xk) = false := by
        simp only [beq_iff_eq] at h₁ ⊢
        simp [h₁, hne]
      simp [List.lookup_cons, h₁, h₂]
  | trans h₁ h₂ ih₁ ih₂ =>
    intro k
    have nd' := ((h₁.map Prod.fst).nodup_iff).mp nd
    rw [ih₁ nd k, ih₂ nd' k]

/-! ## Claim C4 — parameter-string construction -/

/-- C4, counterexample: the engine sorts the pair list by RAW key
(`Object.keys(all).sort()`), not by encoded key.  On the parameter set
`{"0": "x", ":": "y"}` the raw order puts `0` (code 48) before `:`
(code 58), while the encoded keys `0` and `%3A` sort the other way round,
so the engine's output differs from the claimed encoded-key-sorted
output. -/
theorem buildParameterString_encoded_sort_counterexample :
    buildParameterString [("0", "x"), (":", "y")] = "0=x&%3A=y"
  ∧ specBuildParameterString [("0", "x"), (":", "y")] = "%3A=y&0=x"
  ∧ buildParameterString [("0", "x"), (":", "y")]
      ≠ specBuildParameterString [("0", "x"), (":", "y")] := by
  refine ⟨by decide, by decide, by decide⟩

/-- C4, amended: `buildParameterString` joins the `enc(key)=enc(value)`
pairs with `&` sorted ascending by the RAW key (JavaScript default sort
over code units); keys are unique because the parameters live in a plain
object, so no value tie-break ever applies; and the output is identical
regardless of the insertion order of the input — for any permutation of a
duplicate-free parameter list the result is unchanged, e.g. on
`{b: 1, a: 2}` versus `{a: 2, b: 1}`. -/
theorem buildParameterString_perm_invariant (l₁ l₂ : List (String × String))
    (hp : l₁.Perm l₂) (nd : (l₁.map Prod.fst).Nodup) :
    buildParameterString l₁ = buildParameterString l₂ := by
  have nd₂ : (l₂.map Prod.fst).Nodup := ((hp.map Prod.fst).nodup_iff).mp nd
  unfold buildParameterString paramStringOfObject
  rw [jsObject_eq_self nd, jsObject_eq_self nd₂, sortStrings_perm_eq (hp.map Prod.fst)]
  simp only [lookup_perm hp nd]

/-- Witness for C4's amended theorem at the spec's own example. -/
theorem buildParameterString_perm_invariant_witness :
    List.Perm [("b", "1"), ("a", "2")] [("a", "2"), ("b", "1")]
  ∧ buildParameterString [("b", "1"), ("a", "2")]
      = buildParameterString [("a", "2"), ("b", "1")] :=
  ⟨by decide, buildParameterString_perm_invariant _ _ (by decide) (by decide)⟩

/-! ## Claim C1 — capability gating -/

/-- C1: every `none`/`read` tool is registered unconditionally; with any
one of the four delegated credentials empty, the exposed tool set is
exactly the bearer subset and each delegated tool name is absent from it
(invoking it is the same unknown-name situation as any undeclared name);
with all four present (and the bearer token, or startup would have
exited), the exposed set is the full set. -/
theorem capability_gating (c : Credentials) :
    (∀ n ∈ bearerToolNames, n ∈ registeredTools c)
  ∧ ((c.consumerKey = "" ∨ c.consumerSecret = "" ∨ c.token = "" ∨ c.tokenSecret = "") →
      registeredTools c = bearerToolNames ∧ ∀ n ∈ oauthToolNames, n ∉ registeredTools c)
  ∧ (c.consumerKey ≠ "" → c.consumerSecret ≠ "" → c.token ≠ "" → c.tokenSecret ≠ "" →
      registeredTools c = bearerToolNames ++ oauthToolNames) := by
  refine ⟨?_, ?_, ?_⟩
  · intro n hn
    simp only [registeredTools, List.mem_append]
    exact Or.inl hn
  · intro h
    have hf : hasOauth c = false := by
      rcases h with h | h | h | h <;> simp [hasOauth, h]
    refine ⟨by simp [registeredTools, hf], ?_⟩
    intro n hn
    simp only [registeredTools, hf, if_neg Bool.false_ne_true, List.append_nil]
    exact (by decide : ∀ n ∈ oauthToolNames, n ∉ bearerToolNames) n hn
  · intro h₁ h₂ h₃ h₄
    have ht : hasOauth c = true := by simp [hasOauth, h₁, h₂, h₃, h₄]
    simp [registeredTools, ht]

/-- Witness for C1 at a credential set missing only the access token, and
at a full credential set. -/
theorem capability_gating_witness :
    registeredTools ⟨"b", "ck", "cs", "", "ts"⟩ = bearerToolNames
  ∧ ¬ "create_post" ∈ registeredTools ⟨"b", "ck", "cs", "", "ts"⟩
  ∧ registeredTools ⟨"b", "ck", "cs", "tok", "ts"⟩ = bearerToolNames ++ oauthToolNames :=
  ⟨((capability_gating ⟨"b", "ck", "cs", "", "ts"⟩).2.1 (Or.inr (Or.inr (Or.inl rfl)))).1,
   ((capability_gating ⟨"b", "ck", "cs", "", "ts"⟩).2.1 (Or.inr (Or.inr (Or.inl rfl)))).2
     "create_post" (by decide),
   (capability_gating ⟨"b", "ck", "cs", "tok", "ts"⟩).2.2
     (by decide) (by decide) (by decide) (by decide)⟩

/-! ## Claim C8 — startup behaviour and the tool-count diagnostic -/

/-- C8: a missing bearer token exits with code 1 before anything is
served, and a bearer-only configuration serves the 17 read-only tools and
emits the reduced-mode diagnostic stating 17 active of 44 total — but the
stated full count is wrong: a fully-credentialed process registers 43
tools (17 bearer + 26 OAuth), not the 44 stated by the diagnostic and the
`toolCount` constant. -/
theorem startup_count_mismatch :
    startup ⟨"", "ck", "cs", "tok", "ts"⟩ = .exited 1
  ∧ startup ⟨"b", "", "", "", ""⟩ = .serving bearerToolNames (some (17, 44))
  ∧ bearerToolNames.length = 17
  ∧ toolCount ⟨"b", "ck", "cs", "tok", "ts"⟩ = 44
  ∧ (registeredTools ⟨"b", "ck", "cs", "tok", "ts"⟩).length = 43
  ∧ toolCount ⟨"b", "ck", "cs", "tok", "ts"⟩
      ≠ (registeredTools ⟨"b", "ck", "cs", "tok", "ts"⟩).length := by
  refine ⟨by decide, by decide, by decide, by decide, by decide, by decide⟩

/-! ## Claims C6 and C7 — response handling of the two dispatchers -/

/-- C6, counterexample: the bearer dispatcher `xapi` has no 204 case — a
204 response is `res.ok`, so its (empty) body is fed to `res.json()` as
the result payload instead of yielding the empty-payload success; only the
delegated dispatcher returns `{ success: true }` on 204. -/
theorem bearer_204_parses_body :
    xapiHandle 204 "" = ApiOutcome.parsedBody ""
  ∧ xapiHandle 204 "" ≠ ApiOutcome.emptySuccess
  ∧ xapiAuthHandle 204 "" = ApiOutcome.emptySuccess := by
  refine ⟨by decide, by decide, by decide⟩

/-- C6, amended: the delegated dispatcher treats 204 as success with the
fixed empty result payload and never parses its body; the bearer
dispatcher instead parses the body of every 2xx response — including
204 — as the result payload. -/
theorem delegated_204_empty_success (status : Nat) (body : String)
    (h₁ : 200 ≤ status) (h₂ : status ≤ 299) :
    xapiAuthHandle 204 body = ApiOutcome.emptySuccess
  ∧ xapiHandle status body = ApiOutcome.parsedBody body := by
  constructor
  · simp [xapiAuthHandle]
  · simp [xapiHandle, resOk, h₁, h₂]

/-- Witness for C6's amended theorem at status 204. -/
theorem delegated_204_empty_success_witness :
    200 ≤ 204 ∧ 204 ≤ 299
  ∧ (xapiAuthHandle 204 "ignored" = ApiOutcome.emptySuccess
     ∧ xapiHandle 204 "ignored" = ApiOutcome.parsedBody "ignored") :=
  ⟨by decide, by decide, delegated_204_empty_success 204 "ignored" (by decide) (by decide)⟩

/-- C7: on any non-success status both dispatchers fail with the error
carrying exactly the numeric status and the raw response body, after
issuing exactly one upstream request — no retry consumes a second
response. -/
theorem upstream_error_exact (status : Nat) (body : String) (rest : List HttpResponse)
    (h : resOk status = false) :
    xapiDispatch ({ status := status, body := body } :: rest)
      = some (.upstreamError status body, 1)
  ∧ xapiAuthDispatch ({ status := status, body := body } :: rest)
      = some (.upstreamError status body, 1) := by
  have hne : status ≠ 204 := by
    simp [resOk] at h
    omega
  constructor
  · simp [xapiDispatch, xapiHandle, h]
  · simp [xapiAuthDispatch, xapiAuthHandle, h, hne]

/-- Witness for C7 at a simulated 429 with exactly one request issued. -/
theorem upstream_error_exact_witness :
    resOk 429 = false
  ∧ (xapiDispatch [{ status := 429, body := "rate limited" }]
       = some (.upstreamError 429 "rate limited", 1)
     ∧ xapiAuthDispatch [{ status := 429, body := "rate limited" }]
       = some (.upstreamError 429 "rate limited", 1)) :=
  ⟨by decide, upstream_error_exact 429 "rate limited" [] (by decide)⟩

/-! ## Claims C5 and C10 — the setup flow -/

theorem flowStep_inv (s : FlowState) (e : FlowEvent) (h : flowInv s) :
    flowInv (flowStep s e) := by
  obtain ⟨hp, b, n⟩ := s
  obtain ⟨h₁, h₂⟩ := h
  cases e <;> cases hp <;>
    first
      | (simp_all [flowStep, flowInv]; split <;> simp_all [flowInv])
      | simp_all [flowStep, flowInv]

theorem foldl_flow_inv (evs : List FlowEvent) :
    ∀ s, flowInv s → flowInv (evs.foldl flowStep s) := by
  induction evs with
  | nil => exact fun s h => h
  | cons e evs ih => exact fun s h => ih _ (flowStep_inv s e h)

theorem runFlow_inv (evs : List FlowEvent) : flowInv (runFlow evs) :=
  foldl_flow_inv evs initFlowState ⟨by simp [initFlowState], by simp [initFlowState]⟩

/-- C5: after any event sequence under which the flow has exited — the
verifier promise resolved on a valid callback, the temporary-credential
request was rejected, the callback port was occupied, or the 5-minute
timeout fired — the local listener is not bound; and on the success exit
exactly one callback has been consumed (later inbound connections are
ignored by the closed listener and never change that count). -/
theorem flow_listener_released (evs : List FlowEvent) :
    (flowExited (runFlow evs).phase = true → (runFlow evs).listenerBound = false)
  ∧ (∀ v, (runFlow evs).phase = .exchanging v →
      (runFlow evs).callbacksConsumed = 1 ∧ (runFlow evs).listenerBound = false) := by
  obtain ⟨h₁, h₂⟩ := runFlow_inv evs
  constructor
  · intro hex
    cases hb : (runFlow evs).listenerBound
    · rfl
    · rw [h₁.mp hb] at hex
      simp [flowExited] at hex
  · intro v hv
    refine ⟨by simp_all, ?_⟩
    cases hb : (runFlow evs).listenerBound
    · rfl
    · rw [h₁.mp hb] at hv
      simp at hv

/-- Witness for C5 on the success path and on the timeout path. -/
theorem flow_listener_released_witness :
    flowExited (runFlow [.tempCredsOk, .listenOk,
      .inboundRequest "/callback" (some "abc123")]).phase = true
  ∧ (runFlow [.tempCredsOk, .listenOk,
      .inboundRequest "/callback" (some "abc123")]).listenerBound = false
  ∧ (runFlow [.tempCredsOk, .listenOk,
      .inboundRequest "/callback" (some "abc123")]).callbacksConsumed = 1
  ∧ (runFlow [.tempCredsOk, .listenOk, .timeoutFire]).listenerBound = false :=
  ⟨by decide,
   (flow_listener_released [.tempCredsOk, .listenOk,
      .inboundRequest "/callback" (some "abc123")]).1 (by decide),
   ((flow_listener_released [.tempCredsOk, .listenOk,
      .inboundRequest "/callback" (some "abc123")]).2 (some "abc123") (by decide)).1,
   (flow_listener_released [.tempCredsOk, .listenOk, .timeoutFire]).1 (by decide)⟩

/-- C10: a first request reaching `/callback` with no `oauth_verifier`
query parameter is still treated as the consent callback — the listener
closes and the wait resolves with the null verifier (rather than failing
or continuing to wait for a verifier-carrying callback), and the
permanent-credential exchange then signs `oauth_verifier` as that null
value (which `enc` coerces to the string `null`). -/
theorem callback_without_verifier_resolves_null (tok : String) :
    runFlow [.tempCredsOk, .listenOk, .inboundRequest "/callback" none]
      = { phase := .exchanging none, listenerBound := false, callbacksConsumed := 1 }
  ∧ accessTokenRequestParams tok none = [("oauth_token", tok), ("oauth_verifier", "null")] :=
  ⟨by decide, rfl⟩

/-! ## Claim C3 — the percent encoder -/

theorem toNat_ofNat_lt {n : Nat} (h : n < 55296) : (Char.ofNat n).toNat = n := by
  have hv : n.isValidChar := Or.inl h
  simp [Char.ofNat, hv, Char.ofNatAux, Char.toNat, UInt32.toNat, BitVec.toNat_ofNatLt]

theorem jsUnescaped_lt {n : Nat} (h : jsUnescaped n = true) : n < 128 := by
  simp [jsUnescaped] at h
  omega

theorem oauthUnreserved_lt {n : Nat} (h : oauthUnreserved n = true) : n < 128 := by
  simp [oauthUnreserved] at h
  omega

theorem specialByte_js {n : Nat} (h : specialByte n = true) : jsUnescaped n = true := by
  simp [specialByte] at h
  simp [jsUnescaped]
  omega

theorem specialByte_not_unreserved {n : Nat} (h : specialByte n = true) :
    oauthUnreserved n = false := by
  simp [specialByte] at h
  simp [oauthUnreserved]
  omega

theorem unreserved_not_special {n : Nat} (h : oauthUnreserved n = true) :
    specialByte n = false := by
  simp [oauthUnreserved] at h
  simp [specialByte]
  omega

theorem js_not_special_unreserved {n : Nat} (h₁ : jsUnescaped n = true)
    (h₂ : specialByte n = false) : oauthUnreserved n = true := by
  simp [jsUnescaped] at h₁
  simp [specialByte] at h₂
  simp [oauthUnreserved]
  omega

theorem not_js_not_unreserved {n : Nat} (h : jsUnescaped n = false) :
    oauthUnreserved n = false := by
  simp [jsUnescaped] at h
  simp [oauthUnreserved]
  omega

theorem utf8Encode_ascii {c : Char} (h : c.toNat < 128) : utf8Encode c = [c.toNat] := by
  simp [utf8Encode, h]

theorem utf8Encode_not_unreserved {c : Char} (h : jsUnescaped c.toNat = false) :
    ∀ b ∈ utf8Encode c, oauthUnreserved b = false := by
  intro b hb
  by_cases hc : c.toNat < 128
  · rw [utf8Encode_ascii hc] at hb
    simp at hb
    subst hb
    exact not_js_not_unreserved h
  · have h128 : 128 ≤ b := by
      simp only [utf8Encode] at hb
      rw [if_neg hc] at hb
      by_cases h2 : c.toNat < 2048
      · rw [if_pos h2] at hb
        simp at hb
        rcases hb with rfl | rfl <;> omega
      · rw [if_neg h2] at hb
        by_cases h3 : c.toNat < 65536
        · rw [if_pos h3] at hb
          simp at hb
          rcases hb with rfl | rfl | rfl <;> omega
        · rw [if_neg h3] at hb
          simp at hb
          rcases hb with rfl | rfl | rfl | rfl <;> omega
    simp [oauthUnreserved]
    omega

theorem hexDigitChar_not_special (k : Nat) (hk : k < 16) :
    specialByte (hexDigitChar k).toNat = false := by
  interval_cases k <;> decide

theorem replaceSpecial_pct (b : Nat) :
    (pctChars b).flatMap replaceSpecialChar = pctChars b := by
  have h₁ : specialByte 37 = false := by decide
  have h₂ := hexDigitChar_not_special (b / 16 % 16) (Nat.mod_lt _ (by omega))
  have h₃ := hexDigitChar_not_special (b % 16) (Nat.mod_lt _ (by omega))
  simp [pctChars, replaceSpecialChar, h₁, h₂, h₃]

theorem encList_char (c : Char) :
    (encodeURIComponentChar c).flatMap replaceSpecialChar
      = (utf8Encode c).flatMap strictEscapeByte := by
  by_cases hj : jsUnescaped c.toNat = true
  · have hlt : c.toNat < 128 := jsUnescaped_lt hj
    rw [utf8Encode_ascii hlt]
    by_cases hs : specialByte c.toNat = true
    · have ho : oauthUnreserved c.toNat = false := specialByte_not_unreserved hs
      simp [encodeURIComponentChar, hj, replaceSpecialChar, hs, strictEscapeByte, ho]
    · have hsf : specialByte c.toNat = false := by simpa using hs
      have ho : oauthUnreserved c.toNat = true := js_not_special_unreserved hj hsf
      simp [encodeURIComponentChar, hj, replaceSpecialChar, hsf, strictEscapeByte, ho,
        Char.ofNat_toNat]
  · have hjf : jsUnescaped c.toNat = false := by simpa using hj
    simp only [encodeURIComponentChar, hjf, Bool.false_eq_true, if_false]
    rw [List.flatMap_assoc]
    refine List.flatMap_congr ?_
    intro b hb
    have hbf : oauthUnreserved b = false := utf8Encode_not_unreserved hjf b hb
    rw [replaceSpecial_pct b]
    simp [strictEscapeByte, hbf]

theorem encList_eq_strict (cs : List Char) :
    encList cs = oauthPercentEncodeBytes (utf8Bytes cs) := by
  unfold encList oauthPercentEncodeBytes utf8Bytes
  rw [List.flatMap_assoc, List.flatMap_assoc]
  exact List.flatMap_congr (fun c _ => encList_char c)

/-- C3: the percent encoder leaves exactly the strict unreserved octets
`A-Z a-z 0-9 - . _ ~` literal and escapes every other UTF-8 octet of the
input, octet by octet; no literal `! * ' ( )` ever survives into the
output; and every occurrence of one of those five characters in the input
contributes its explicit uppercase hex escape to the output. -/
theorem enc_strict_unreserved (s : String) :
    (enc s).data = oauthPercentEncodeBytes (utf8Bytes s.data)
  ∧ (∀ c ∈ (enc s).data, specialByte c.toNat = false)
  ∧ (∀ c ∈ s.data, specialByte c.toNat = true → pctChars c.toNat <:+: (enc s).data) := by
  refine ⟨encList_eq_strict s.data, ?_, ?_⟩
  · intro c hc
    rw [show (enc s).data = encList s.data from rfl, encList_eq_strict s.data] at hc
    obtain ⟨b, hb, hcb⟩ := List.mem_flatMap.mp hc
    by_cases hu : oauthUnreserved b = true
    · simp only [strictEscapeByte, hu, if_pos] at hcb
      simp at hcb
      subst hcb
      have hblt : b < 128 := oauthUnreserved_lt hu
      rw [toNat_ofNat_lt (by omega)]
      exact unreserved_not_special hu
    · have huf : oauthUnreserved b = false := by simpa using hu
      simp only [strictEscapeByte, huf, Bool.false_eq_true, if_false, pctChars] at hcb
      simp at hcb
      rcases hcb with rfl | rfl | rfl
      · decide
      · exact hexDigitChar_not_special _ (Nat.mod_lt _ (by omega))
      · exact hexDigitChar_not_special _ (Nat.mod_lt _ (by omega))
  · intro c hcmem hcs
    obtain ⟨l₁, l₂, heq⟩ := List.append_of_mem hcmem
    have hjs : jsUnescaped c.toNat = true := specialByte_js hcs
    have hlt : c.toNat < 128 := jsUnescaped_lt hjs
    have hnu : oauthUnreserved c.toNat = false := specialByte_not_unreserved hcs
    refine ⟨oauthPercentEncodeBytes (utf8Bytes l₁), oauthPercentEncodeBytes (utf8Bytes l₂), ?_⟩
    rw [show (enc s).data = encList s.data from rfl, encList_eq_strict s.data, heq]
    unfold utf8Bytes oauthPercentEncodeBytes
    simp [List.flatMap_append, utf8Encode_ascii hlt, strictEscapeByte, hnu, pctChars]

/-- Witness for C3 at the input `a!`. -/
theorem enc_strict_unreserved_witness :
    (enc "a!").data = oauthPercentEncodeBytes (utf8Bytes "a!".data)
  ∧ specialByte ('!'.toNat) = true
  ∧ pctChars ('!'.toNat) <:+: (enc "a!").data :=
  ⟨(enc_strict_unreserved "a!").1,
   by decide,
   (enc_strict_unreserved "a!").2.2 '!' (by decide) (by decide)⟩

/-! ## Claim C2 — the delegated signature -/

/-- C2: every delegated call's `Authorization` header is produced by
`oauthSign` invoked on the URL stripped of its query and fragment and on
the URL's true query-string parameters; the signature inside it is exactly
`hmac(signingKey, baseString)` — where `hmac` stands for
base64(HMAC-SHA1(key, message)) of node:crypto — with the spec's signing
key and the spec's base string over the six `oauth_*` protocol parameters
merged with those query parameters; and the JSON body never influences the
header, hence never participates in the base string. -/
theorem delegated_signature (hmac : String → String → String) (c : Credentials)
    (ts nonce method endpoint : String) (body : Option String) :
    (xapiAuthRequest hmac c ts nonce method endpoint body).authHeader
      = (oauthSign hmac c ts nonce method (signingUrl endpoint)
          (signedQueryParams endpoint)).header
  ∧ (oauthSign hmac c ts nonce method (signingUrl endpoint)
      (signedQueryParams endpoint)).signature
      = hmac (specSigningKey c) (specBaseString c ts nonce method endpoint)
  ∧ (∀ body₂ : Option String,
      (xapiAuthRequest hmac c ts nonce method endpoint body).authHeader
        = (xapiAuthRequest hmac c ts nonce method endpoint body₂).authHeader) :=
  ⟨rfl, rfl, fun _ => rfl⟩

/-! ## Claim C9 — the memoized user id -/

/-- C9, counterexample: two invocations of `getMyUserId` that both pass
the cache check before either response arrives (the cell is written only
by the response) each issue their own upstream who-am-i request: the
claimed single upstream call fails under concurrent first callers. -/
theorem concurrent_first_callers_two_requests :
    (runIdFetch [.invoke 0, .invoke 1, .response 0 "42", .response 1 "42"]).requests = 2
  ∧ (runIdFetch [.invoke 0, .invoke 1, .response 0 "42", .response 1 "42"]).requests ≠ 1 := by
  refine ⟨rfl, by decide⟩

theorem invoke_other_thread_untouched (u v : Nat) (hvu : v ≠ u) (st : IdFetchState) :
    (idFetchStep st (.invoke v)).threads u = st.threads u := by
  simp only [idFetchStep]
  cases st.threads v
  · by_cases hc : truthy st.cache = true
    · simp [hc, Ne.symm hvu]
    · simp [hc, Ne.symm hvu]
  · rfl
  · rfl

theorem invokes_untouched (u : Nat) : ∀ (l : List Nat) (st : IdFetchState), u ∉ l →
    ((l.map IdFetchEvent.invoke).foldl idFetchStep st).threads u = st.threads u := by
  intro l
  induction l with
  | nil => exact fun st _ => rfl
  | cons v l ihl =>
    intro st hnm
    have hvu : v ≠ u := fun hvu => hnm (hvu ▸ List.mem_cons_self v l)
    calc (((v :: l).map IdFetchEvent.invoke).foldl idFetchStep st).threads u
        = ((l.map IdFetchEvent.invoke).foldl idFetchStep
            (idFetchStep st (.invoke v))).threads u := rfl
      _ = (idFetchStep st (.invoke v)).threads u :=
          ihl (idFetchStep st (.invoke v)) (fun hm => hnm (List.mem_cons_of_mem _ hm))
      _ = st.threads u := invoke_other_thread_untouched u v hvu st

theorem seq_invokes (id : String) (hid : id ≠ "") :
    ∀ (ts : List Nat) (s : IdFetchState), s.cache = some id →
      (∀ t ∈ ts, s.threads t = .idle ∨ s.threads t = .finished id) →
      ((ts.map IdFetchEvent.invoke).foldl idFetchStep s).requests = s.requests
      ∧ ((ts.map IdFetchEvent.invoke).foldl idFetchStep s).cache = some id
      ∧ (∀ t ∈ ts, ((ts.map IdFetchEvent.invoke).foldl idFetchStep s).threads t
          = .finished id) := by
  intro ts
  induction ts with
  | nil => exact fun s hc _ => ⟨rfl, hc, by simp⟩
  | cons t ts ih =>
    intro s hc hth
    have htruthy : truthy s.cache = true := by
      rw [hc]
      simp [truthy, hid]
    have hstep : (idFetchStep s (.invoke t)).requests = s.requests
        ∧ (idFetchStep s (.invoke t)).cache = s.cache
        ∧ (idFetchStep s (.invoke t)).threads t = .finished id
        ∧ (∀ n, n ≠ t → (idFetchStep s (.invoke t)).threads n = s.threads n) := by
      rcases hth t (List.mem_cons_self t ts) with hidle | hfin
      · rw [show idFetchStep s (.invoke t)
            = { s with threads := fun n =>
                if n = t then .finished (s.cache.getD "") else s.threads n } by
            simp [idFetchStep, hidle, htruthy]]
        refine ⟨rfl, rfl, by simp [hc], fun n hn => by simp [hn]⟩
      · rw [show idFetchStep s (.invoke t) = s by simp [idFetchStep, hfin]]
        exact ⟨rfl, rfl, hfin, fun _ _ => rfl⟩
    obtain ⟨hr, hcc, hft, hun⟩ := hstep
    have hth' : ∀ u ∈ ts, (idFetchStep s (.invoke t)).threads u = .idle
        ∨ (idFetchStep s (.invoke t)).threads u = .finished id := by
      intro u hu
      by_cases he : u = t
      · subst he
        exact Or.inr hft
      · rw [hun u he]
        exact hth u (List.mem_cons_of_mem _ hu)
    obtain ⟨ihr, ihc, ihth⟩ := ih (idFetchStep s (.invoke t)) (hcc.trans hc) hth'
    refine ⟨ihr.trans hr, ihc, ?_⟩
    intro u hu
    rcases List.mem_cons.mp hu with he | hu'
    · subst he
      by_cases hmem : u ∈ ts
      · exact ihth u hmem
      · have h1 : ((ts.map IdFetchEvent.invoke).foldl idFetchStep
            (idFetchStep s (.invoke u))).threads u
              = (idFetchStep s (.invoke u)).threads u :=
          invokes_untouched u ts (idFetchStep s (.invoke u)) hmem
        exact h1.trans hft
    · exact ihth u hu'

/-- C9, amended: when each invocation completes before the next begins,
the identity is resolved by exactly one upstream who-am-i call (provided
the resolved id is non-empty, since the cache check is JS truthiness), and
every later invocation finishes with the memoized value; but concurrent
first callers are not single-flighted — each cache miss occurring before
the first response issues its own upstream request. -/
theorem sequential_identity_single_request (k : Nat) (id : String) (hid : id ≠ "") :
    (runIdFetch (.invoke 0 :: .response 0 id
        :: (List.range k).map (fun i => .invoke (i + 1)))).requests = 1
  ∧ ∀ i, i < k →
      (runIdFetch (.invoke 0 :: .response 0 id
          :: (List.range k).map (fun i => .invoke (i + 1)))).threads (i + 1)
        = .finished id := by
  have hmapeq : (List.range k).map (fun i => IdFetchEvent.invoke (i + 1))
      = ((List.range k).map (fun i => i + 1)).map IdFetchEvent.invoke := by
    rw [List.map_map]
    rfl
  have hcache : (idFetchStep (idFetchStep initIdFetch (.invoke 0)) (.response 0 id)).cache
      = some id := rfl
  have hreq2 : (idFetchStep (idFetchStep initIdFetch (.invoke 0)) (.response 0 id)).requests
      = 1 := rfl
  have hthidle : ∀ u : Nat, u ≠ 0 →
      (idFetchStep (idFetchStep initIdFetch (.invoke 0)) (.response 0 id)).threads u
        = .idle := by
    intro u hu
    simp [idFetchStep, initIdFetch, truthy, hu]
  have hpre : ∀ t ∈ (List.range k).map (fun i => i + 1),
      (idFetchStep (idFetchStep initIdFetch (.invoke 0)) (.response 0 id)).threads t = .idle
      ∨ (idFetchStep (idFetchStep initIdFetch (.invoke 0)) (.response 0 id)).threads t
          = .finished id := by
    intro t ht
    obtain ⟨i, _, rfl⟩ := List.mem_map.mp ht
    exact Or.inl (hthidle (i + 1) (Nat.succ_ne_zero i))
  obtain ⟨hr, _, hthr⟩ := seq_invokes id hid ((List.range k).map (fun i => i + 1))
    (idFetchStep (idFetchStep initIdFetch (.invoke 0)) (.response 0 id)) hcache hpre
  constructor
  · show ((((List.range k).map (fun i => IdFetchEvent.invoke (i + 1))).foldl idFetchStep
        (idFetchStep (idFetchStep initIdFetch (.invoke 0)) (.response 0 id)))).requests = 1
    rw [hmapeq]
    exact hr.trans hreq2
  · intro i hik
    show ((((List.range k).map (fun i => IdFetchEvent.invoke (i + 1))).foldl idFetchStep
        (idFetchStep (idFetchStep initIdFetch (.invoke 0)) (.response 0 id)))).threads (i + 1)
      = .finished id
    rw [hmapeq]
    exact hthr (i + 1) (List.mem_map.mpr ⟨i, List.mem_range.mpr hik, rfl⟩)

/-- Witness for C9's amended theorem: one invocation resolves, two later
invocations reuse the memoized id, one request in total. -/
theorem sequential_identity_single_request_witness :
    ("42" : String) ≠ ""
  ∧ ((runIdFetch (.invoke 0 :: .response 0 "42"
        :: (List.range 2).map (fun i => .invoke (i + 1)))).requests = 1
     ∧ ∀ i, i < 2 →
        (runIdFetch (.invoke 0 :: .response 0 "42"
            :: (List.range 2).map (fun i => .invoke (i + 1)))).threads (i + 1)
          = .finished "42") :=
  ⟨by decide, sequential_identity_single_request 2 "42" (by decide)⟩

end XMcp
